import Mathlib

/-!
Verification development for the netflixrecommendations repository.

The repository is a conversational media-recommendation web app: Supabase edge
functions (`get-next-question`, `get-recommendations`, `generate-embedding`),
SQL migrations defining the `recommendations` and `show_embeddings` tables and
the `match_show_embeddings` RPC, and a React front end (`Index.tsx`).

This file gives a shallow embedding of the data model and of the operations the
claims concern, translated from the source: JavaScript strings are lists of
characters where character-level behaviour matters, JavaScript numbers used for
ratings are integers, averages and similarity scores are rationals (modelled
exactly), fallible steps return `Option`, and the external generative/embedding
providers and the pgvector distance operator appear as explicit parameters.
-/

namespace NetflixRec

/-! ### JavaScript string primitives used by the edge functions -/

/-- JavaScript strings modelled as lists of characters. -/
abbrev JStr := List Char

/-- JavaScript `String.prototype.trim()`: drop leading and trailing whitespace
(whitespace modelled by `Char.isWhitespace`). -/
def jsTrim (s : JStr) : JStr :=
  ((s.dropWhile Char.isWhitespace).reverse.dropWhile Char.isWhitespace).reverse

/-- JavaScript `String.prototype.split(',')`: split on every comma; the empty
string splits to one empty piece. -/
def jsSplitOnComma : JStr → List JStr
  | [] => [[]]
  | c :: cs =>
    if c = ',' then [] :: jsSplitOnComma cs
    else
      match jsSplitOnComma cs with
      | [] => [[c]]
      | t :: ts => (c :: t) :: ts

/-- JavaScript `String.prototype.startsWith` over character lists. -/
def jsStartsWith : List Char → List Char → Bool
  | _, [] => true
  | [], _ :: _ => false
  | c :: cs, d :: ds => c = d && jsStartsWith cs ds

/-- JavaScript `String.prototype.includes` (substring test) over character lists. -/
def jsContainsSub : List Char → List Char → Bool
  | [], sub => decide (sub = [])
  | c :: cs, sub => jsStartsWith (c :: cs) sub || jsContainsSub cs sub

/-- JavaScript `s.toLowerCase().includes(sub)` for Lean `String`s, as used by the
content-type partition in `get-recommendations/index.ts`. -/
def jsLowerIncludes (s : String) (sub : String) : Bool :=
  jsContainsSub (s.toList.map Char.toLower) sub.toList

/-! ### Genres normalization (`get-next-question/index.ts`, lines 256-267) -/

/-- Shape of the `preferences.genres` value in the parsed generative-layer
response: absent (`undefined`/`null`), a string, or an array of strings.  These
are the shapes the normalization block distinguishes. -/
inductive GenresValue where
  | absent
  | strVal (s : JStr)
  | arrVal (l : List JStr)
deriving DecidableEq, Repr

/-- The genres normalization block of `get-next-question/index.ts`:
a truthy string is split on commas, each piece trimmed, empty pieces dropped;
a falsy value (absent, or the empty string) becomes the empty array; any other
value — in particular an array, which is always truthy in JavaScript — is left
unchanged. -/
def normalizeGenres : GenresValue → List JStr
  | .absent => []
  | .strVal s =>
    if s = [] then []
    else ((jsSplitOnComma s).map jsTrim).filter (fun g => 0 < g.length)
  | .arrVal l => l

/-! ### JSON model and the get-recommendations response tail -/

/-- Minimal JSON value model for the parsed generative-layer content. -/
inductive Json where
  | null
  | jbool (b : Bool)
  | jnum (q : Rat)
  | jstr (s : String)
  | jarr (elems : List Json)
  | jobj (fields : List (String × Json))

/-- Field lookup in a JSON object (first binding wins). -/
def jsonField : List (String × Json) → String → Option Json
  | [], _ => none
  | (k, v) :: rest, key => if k = key then some v else jsonField rest key

/-- The `recommendations` array of a parsed response, when present. -/
def recommendationsOf : Json → Option (List Json)
  | .jobj fields =>
    match jsonField fields "recommendations" with
    | some (.jarr elems) => some elems
    | _ => none
  | _ => none

/-- Record count of a parsed response. -/
def recommendationCount (j : Json) : Option Nat :=
  (recommendationsOf j).map List.length

/-- Required fields of one recommendation record, per the spec's output contract. -/
def requiredRecordFields : List String :=
  ["title", "type", "genre", "description", "matchReason", "rating"]

/-- Does one parsed record carry every required field? -/
def recordHasRequiredFields : Json → Bool
  | .jobj fields => requiredRecordFields.all (fun k => (jsonField fields k).isSome)
  | _ => false

/-- Modelled from the spec: the output guarantee of section 4.4 — exactly 6
records, each with the required fields.  The deployed handler performs no such
validation; this definition exists to compare the spec's words against the
handler. -/
def specExpectedShape (j : Json) : Prop :=
  ∃ recs, recommendationsOf j = some recs ∧ recs.length = 6 ∧
    ∀ r ∈ recs, recordHasRequiredFields r = true

/-- HTTP response of the get-recommendations handler: a status code and, on
success, the parsed body that is sent back. -/
structure RecsResponse where
  status : Nat
  body : Option Json

/-- Tail of the `get-recommendations` serve handler (index.ts lines 545-562 and
the catch block): a failed gateway call throws and is caught as a 500; content
that fails `JSON.parse` throws and is caught as a 500; content that parses is
returned to the caller verbatim with status 200.  `parsedContent` is `none`
exactly when `JSON.parse` would throw. -/
def finishRecommendations (gatewayOk : Bool) (parsedContent : Option Json) : RecsResponse :=
  if gatewayOk then
    match parsedContent with
    | some recommendations => { status := 200, body := some recommendations }
    | none => { status := 500, body := none }
  else { status := 500, body := none }

/-! ### The show_embeddings store and the similarity RPC -/

/-- Row of the `public.show_embeddings` table (migration 20251104045615):
`CHECK (user_rating >= 4 AND user_rating <= 5)`, `UNIQUE (user_id, title)`,
row-level security scoping every row to its `user_id`. -/
structure EmbRow where
  user_id : Nat
  title : String
  description : String
  embedding : List Rat
  user_rating : Int
deriving DecidableEq, Repr

/-- One result row of the `match_show_embeddings` RPC. -/
structure SimRow where
  title : String
  description : String
  similarity : Rat
deriving DecidableEq, Repr

/-- Body of the `match_show_embeddings` SQL function: over the rows visible to
the executing role, keep rows with `1 - (embedding <=> query) > threshold`,
order by distance ascending, limit to `match_count`, and return
`(title, description, similarity)`.  The pgvector cosine-distance operator
`<=>` belongs to the external storage engine and is the parameter `dist`. -/
def match_show_embeddings (dist : List Rat → List Rat → Rat) (visibleRows : List EmbRow)
    (query_embedding : List Rat) (match_threshold : Rat) (match_count : Nat) : List SimRow :=
  ((List.insertionSort
        (fun a b => dist a.embedding query_embedding ≤ dist b.embedding query_embedding)
        (visibleRows.filter
          (fun r => decide (match_threshold < 1 - dist r.embedding query_embedding)))).take
    match_count).map
    (fun r => { title := r.title, description := r.description,
                similarity := 1 - dist r.embedding query_embedding })

/-- Rows of `show_embeddings` visible under the table's row-level-security
policies to the authenticated user `uid`: exactly the rows whose `user_id` is
`uid`. -/
def rlsVisible (uid : Nat) (table : List EmbRow) : List EmbRow :=
  table.filter (fun r => decide (r.user_id = uid))

/-- The RPC as deployed after migration 20251111042258: the function is
recreated with `SECURITY DEFINER` and no `user_id` predicate in its body, so it
executes with the function owner's rights; the owner is not subject to the
table's row-level security (the table is not under `FORCE ROW LEVEL SECURITY`),
hence every user's rows are visible to the query. -/
def matchRpcDeployed (dist : List Rat → List Rat → Rat) (table : List EmbRow)
    (query_embedding : List Rat) (match_threshold : Rat) (match_count : Nat) : List SimRow :=
  match_show_embeddings dist table query_embedding match_threshold match_count

/-- The RPC as originally created (migration 20251104045615, invoker rights):
the caller's row-level security applies, so only the calling user's rows are
visible. -/
def matchRpcInvoker (dist : List Rat → List Rat → Rat) (table : List EmbRow) (uid : Nat)
    (query_embedding : List Rat) (match_threshold : Rat) (match_count : Nat) : List SimRow :=
  match_show_embeddings dist (rlsVisible uid table) query_embedding match_threshold match_count

/-! ### Candidate aggregation in get-recommendations (index.ts lines 101-145) -/

/-- One seed for similarity search: a stored embedding of the user together
with its title, as selected from `show_embeddings` (rating at least 4, ten most
recent). -/
structure SeedEmb where
  embedding : List Rat
  title : String
deriving DecidableEq, Repr

/-- The filter inside the similarity loop: keep a returned show unless its
title equals the current seed's own title, appears in the watched list, or
appears among previously recommended titles. -/
def keepShow (watchedShows previouslyRecommended : List String)
    (seedTitle showTitle : String) : Bool :=
  decide (showTitle ≠ seedTitle) && decide (showTitle ∉ watchedShows) &&
    decide (showTitle ∉ previouslyRecommended)

/-- JavaScript `Set.prototype.add` on an insertion-ordered set modelled as a
duplicate-free list: appends the element unless already present. -/
def setAdd (s : List String) (x : String) : List String :=
  if x ∈ s then s else s ++ [x]

/-- Inner `forEach` of the similarity loop: fold one seed's query results into
the accumulated title set. -/
def addSimilar (watchedShows previouslyRecommended : List String) (seedTitle : String)
    (similarShows : List SimRow) (acc : List String) : List String :=
  similarShows.foldl
    (fun acc shw =>
      if keepShow watchedShows previouslyRecommended seedTitle shw.title then
        setAdd acc shw.title
      else acc) acc

/-- The `allSimilarTitles` set after the whole loop, given each seed's query
result: seeds are processed in order, starting from the empty set. -/
def aggregateSimilarTitles (watchedShows previouslyRecommended : List String)
    (queryResults : List (String × List SimRow)) : List String :=
  queryResults.foldl
    (fun acc p => addSimilar watchedShows previouslyRecommended p.1 p.2 acc) []

/-- `Array.from(allSimilarTitles).slice(0, 30)` applied to the aggregate. -/
def candidatesFromResults (watchedShows previouslyRecommended : List String)
    (queryResults : List (String × List SimRow)) : List String :=
  (aggregateSimilarTitles watchedShows previouslyRecommended queryResults).take 30

/-- The embedding-based candidate list of the deployed pipeline: each seed's
query runs through the deployed RPC with threshold 0.7 and count 20, and the
results are aggregated and capped at 30. -/
def embeddingBasedCandidates (dist : List Rat → List Rat → Rat) (table : List EmbRow)
    (watchedShows previouslyRecommended : List String) (embeddings : List SeedEmb) :
    List String :=
  candidatesFromResults watchedShows previouslyRecommended
    (embeddings.map (fun s => (s.title, matchRpcDeployed dist table s.embedding (7/10) 20)))

/-- Keep-first deduplication: the specification-side description of JavaScript
`Set` insertion order, used to characterise the aggregate. -/
def firstOccurrences : List String → List String
  | [] => []
  | x :: xs => x :: (firstOccurrences xs).filter (fun y => decide (y ≠ x))

/-- Titles of one seed's query results that pass the eligibility filter. -/
def eligibleTitles (watchedShows previouslyRecommended : List String)
    (seedTitle : String) (rows : List SimRow) : List String :=
  (rows.filter (fun r => keepShow watchedShows previouslyRecommended seedTitle r.title)).map
    SimRow.title

/-! ### The generate-embedding edge function (src/unnamed/part_000) -/

/-- Request body of the generate-embedding function; each field may be absent. -/
structure EmbedRequest where
  title : Option String
  description : Option String
  rating : Option Int
deriving DecidableEq, Repr

/-- JavaScript truthiness of an optional string (absent and the empty string
are falsy). -/
def truthyStr : Option String → Bool
  | some s => decide (s ≠ "")
  | none => false

/-- JavaScript truthiness of an optional integer (absent and zero are falsy). -/
def truthyInt : Option Int → Bool
  | some n => decide (n ≠ 0)
  | none => false

/-- Match on the table's unique key `(user_id, title)`. -/
def keyMatch (uid : Nat) (title : String) (r : EmbRow) : Bool :=
  decide (r.user_id = uid) && decide (r.title = title)

/-- The ON CONFLICT update: replace the non-key columns of the conflicting
row, leave every other row alone. -/
def overwriteRow (row r : EmbRow) : EmbRow :=
  if r.user_id = row.user_id ∧ r.title = row.title then
    { r with description := row.description, embedding := row.embedding,
             user_rating := row.user_rating }
  else r

/-- Supabase `upsert` with `onConflict: 'user_id,title'`: update the row with
the same key when one exists, insert otherwise. -/
def upsertShowEmbedding (store : List EmbRow) (row : EmbRow) : List EmbRow :=
  if store.any (keyMatch row.user_id row.title) then
    store.map (overwriteRow row)
  else store ++ [row]

/-- The table's CHECK constraint on `user_rating`; an upsert violating it
raises a database error instead of writing. -/
def showEmbeddingsCheckOk (r : Int) : Bool :=
  decide (4 ≤ r) && decide (r ≤ 5)

/-- Outcome of one generate-embedding request: HTTP status, the resulting
store, and whether the embedding provider was invoked. -/
structure EmbedOutcome where
  status : Nat
  store : List EmbRow
  embedCalled : Bool
deriving DecidableEq, Repr

/-- The generate-embedding serve handler as a state transformer over the
store.  `auth` is the user resolved from the authorization header (`none` when
the header is missing or the token is rejected); `embedServiceOk` and `emb`
model the outcome of the external embeddings call.  Control flow follows the
source: truthiness check on the three fields (400), early 200 return for
ratings below 4, 401 without a user, 500 when the provider call or the upsert
throws, 200 with the upserted store otherwise. -/
def generate_embedding (req : EmbedRequest) (auth : Option Nat) (embedServiceOk : Bool)
    (emb : List Rat) (store : List EmbRow) : EmbedOutcome :=
  if (truthyStr req.title && truthyStr req.description && truthyInt req.rating) = false then
    { status := 400, store := store, embedCalled := false }
  else if req.rating.getD 0 < 4 then
    { status := 200, store := store, embedCalled := false }
  else
    match auth with
    | none => { status := 401, store := store, embedCalled := false }
    | some uid =>
      if embedServiceOk then
        if showEmbeddingsCheckOk (req.rating.getD 0) then
          { status := 200,
            store := upsertShowEmbedding store
              { user_id := uid, title := req.title.getD "",
                description := req.description.getD "", embedding := emb,
                user_rating := req.rating.getD 0 },
            embedCalled := true }
        else { status := 500, store := store, embedCalled := true }
      else { status := 500, store := store, embedCalled := true }

/-- Two rows collide on the table's unique key. -/
def sameKey (a b : EmbRow) : Prop :=
  a.user_id = b.user_id ∧ a.title = b.title

instance (a b : EmbRow) : Decidable (sameKey a b) := by
  unfold sameKey; infer_instance

/-- Well-formedness of the embedding store: the CHECK constraint holds on every
row and the unique key admits no duplicates. -/
def StoreWF (store : List EmbRow) : Prop :=
  (∀ r ∈ store, 4 ≤ r.user_rating ∧ r.user_rating ≤ 5) ∧
    store.Pairwise (fun a b => ¬ sameKey a b)

/-- Number of stored rows carrying a given (user, title) key. -/
def countKey (store : List EmbRow) (uid : Nat) (title : String) : Nat :=
  (store.filter (keyMatch uid title)).length

/-- One invocation of the generate-embedding function, with its request and
its external context. -/
structure EmbedEvent where
  req : EmbedRequest
  auth : Option Nat
  embedServiceOk : Bool
  emb : List Rat
deriving DecidableEq, Repr

/-- The store reached from the empty table by a sequence of invocations. -/
def runEmbedEvents (events : List EmbedEvent) : List EmbRow :=
  events.foldl (fun store e => (generate_embedding e.req e.auth e.embedServiceOk e.emb store).store) []

/-! ### The recommendations table and handleWatchedStatus (Index.tsx) -/

/-- Row of the `public.recommendations` table (migration 20251104045615). -/
structure RecRow where
  id : Nat
  user_id : Nat
  title : String
  type : String
  genre : String
  description : String
  match_reason : String
  rating : String
  user_rating : Option Int
  watched : Option Bool
deriving DecidableEq, Repr

/-- `handleWatchedStatus` from `Index.tsx`: without a session it returns
immediately; otherwise it updates the row whose id matches — under the table's
update policy only the caller's own rows are reachable — setting `watched`,
and additionally forcing `user_rating` to 1 exactly when `liked` is literally
`false` (`liked === false`). -/
def handleWatchedStatus (sessionUser : Option Nat) (recs : List RecRow)
    (recommendationId : Nat) (watched : Bool) (liked : Option Bool) : List RecRow :=
  match sessionUser with
  | none => recs
  | some uid =>
    recs.map (fun rec =>
      if rec.id = recommendationId ∧ rec.user_id = uid then
        if liked = some false then
          { rec with watched := some watched, user_rating := some 1 }
        else
          { rec with watched := some watched }
      else rec)

/-! ### The rating pattern analysis (get-recommendations index.ts lines 286-398) -/

/-- Row of the fetched rating history (`title, type, genre, user_rating,
watched, match_reason`, rows with a non-null rating). -/
structure RatedRow where
  title : String
  type : String
  genre : String
  user_rating : Int
  watched : Option Bool
  match_reason : String
deriving DecidableEq, Repr

/-- Add one rating to the matching genre's running total and count, leaving
other entries alone. -/
def bumpStat (genre : String) (rating : Int) (p : String × Int × Nat) :
    String × Int × Nat :=
  if p.1 = genre then (p.1, p.2.1 + rating, p.2.2 + 1) else p

/-- One step of the `genreStats` accumulation: initialise the genre's entry on
first sight, then add the rating to its total and bump its count.  The
JavaScript object is insertion-ordered for string keys, hence the ordered
association list. -/
def bumpGenre (acc : List (String × Int × Nat)) (genre : String) (rating : Int) :
    List (String × Int × Nat) :=
  if acc.any (fun p => decide (p.1 = genre)) then acc.map (bumpStat genre rating)
  else acc ++ [(genre, rating, 1)]

/-- The `genreStats` object after folding the whole rating history. -/
def genreStats (ratingHistory : List RatedRow) : List (String × Int × Nat) :=
  ratingHistory.foldl (fun acc r => bumpGenre acc r.genre r.user_rating) []

/-- `genreAverages`: map each genre's stats to its average rating and count,
sorted by average descending (JavaScript's stable sort with comparator
`b.avg - a.avg`). -/
def genreAveragesOf (ratingHistory : List RatedRow) : List (String × Rat × Nat) :=
  List.insertionSort (fun a b => b.2.1 ≤ a.2.1)
    ((genreStats ratingHistory).map
      (fun p => (p.1, (p.2.1 : Rat) / ((p.2.2 : Nat) : Rat), p.2.2)))

/-- Rows whose type, lower-cased, contains `series`. -/
def seriesRatings (ratingHistory : List RatedRow) : List RatedRow :=
  ratingHistory.filter (fun r => jsLowerIncludes r.type "series")

/-- Rows whose type, lower-cased, contains `movie`. -/
def movieRatings (ratingHistory : List RatedRow) : List RatedRow :=
  ratingHistory.filter (fun r => jsLowerIncludes r.type "movie")

/-- Sum of the user ratings of a list of rows. -/
def ratingSum (rows : List RatedRow) : Int :=
  (rows.map (fun r => r.user_rating)).sum

/-- Average rating of a list of rows, 0 when the list is empty (the source's
ternary default). -/
def typeAvg (rows : List RatedRow) : Rat :=
  if 0 < rows.length then (ratingSum rows : Rat) / ((rows.length : Nat) : Rat) else 0

/-- The structured content of the pattern-analysis text block. -/
structure PatternAnalysis where
  genreAverages : List (String × Rat × Nat)
  topGenres : List (String × Rat × Nat)
  poorGenres : List (String × Rat × Nat)
  seriesAvg : Rat
  movieAvg : Rat
  strongPreference : Bool
deriving DecidableEq, Repr

/-- The pattern analyzer: the whole block is guarded by
`ratingHistory.length > 0`; with empty history no analysis text is produced,
modelled as `none`.  Top genres have average at least 4.0, poor genres at most
2.5; a strong content-type preference is flagged exactly when the two averages
differ by more than 0.5. -/
def analyzeRatings (ratingHistory : List RatedRow) : Option PatternAnalysis :=
  if ratingHistory.length = 0 then none
  else
    let averages := genreAveragesOf ratingHistory
    let seriesAvg := typeAvg (seriesRatings ratingHistory)
    let movieAvg := typeAvg (movieRatings ratingHistory)
    some
      { genreAverages := averages
        topGenres := averages.filter (fun g => decide ((4 : Rat) ≤ g.2.1))
        poorGenres := averages.filter (fun g => decide (g.2.1 ≤ (5 : Rat) / 2))
        seriesAvg := seriesAvg
        movieAvg := movieAvg
        strongPreference := decide ((1 : Rat) / 2 < |seriesAvg - movieAvg|) }

/-! ### The get-next-question edge function -/

/-- One entry of the conversation history (question plus answer, the answer a
string or an array of strings). -/
structure ConversationEntry where
  question : String
  answer : Sum String (List String)
deriving DecidableEq, Repr

/-- Zod bounds on one history entry. -/
def entryValid (e : ConversationEntry) : Bool :=
  decide (e.question.length ≤ 500) &&
    match e.answer with
    | .inl s => decide (s.length ≤ 500)
    | .inr l => decide (l.length ≤ 20) && l.all (fun s => decide (s.length ≤ 100))

/-- Zod bounds on the request: at most 30 entries, each within its caps. -/
def requestValid (conversationHistory : List ConversationEntry) : Bool :=
  decide (conversationHistory.length ≤ 30) && conversationHistory.all entryValid

/-- A question template as emitted in responses. -/
structure QuestionT where
  id : String
  question : String
  qtype : String
  options : List String
deriving DecidableEq, Repr

/-- The extracted preference payload; only `genres` is post-processed by the
handler, the remaining fields pass through. -/
structure Prefs where
  mood : Option String
  contentType : Option String
  watchTime : Option String
  genres : GenresValue
  company : Option String
  watchStyle : Option String
  language : Option String
  underrated : Option String
  ageRating : Option String
deriving DecidableEq, Repr

/-- Parsed generative-layer response of the conversation step. -/
structure ModelResult where
  ready : Bool
  confidence : Int
  needsClarification : Bool
  message : Option String
  nextQuestion : Option QuestionT
  preferences : Option Prefs
deriving DecidableEq, Repr

/-- The normalization applied after parsing: when `ready` and `preferences`
are truthy, replace `preferences.genres` by its normalized array; everything
else, `confidence` included, is left untouched. -/
def normalizeResult (r : ModelResult) : ModelResult :=
  if r.ready then
    match r.preferences with
    | some p => { r with preferences := some { p with genres := .arrVal (normalizeGenres p.genres) } }
    | none => r
  else r

/-- HTTP response of the get-next-question handler. -/
structure NQResponse where
  status : Nat
  result : Option ModelResult
deriving DecidableEq, Repr

/-- The get-next-question serve handler: validate the request (400 on
violation), call the generative gateway — `oracle` maps the history to the
parsed response content, `none` when the gateway fails or its content does not
parse (500) — then return the normalized result with status 200.  No
confidence computation of its own: the returned confidence is whatever the
generative layer reported. -/
def get_next_question (oracle : List ConversationEntry → Option ModelResult)
    (conversationHistory : List ConversationEntry) : NQResponse :=
  if requestValid conversationHistory then
    match oracle conversationHistory with
    | some r => { status := 200, result := some (normalizeResult r) }
    | none => { status := 500, result := none }
  else { status := 400, result := none }

/-- Confidence value visible to the caller of the conversation step, when the
call succeeded. -/
def returnedConfidence (resp : NQResponse) : Option Int :=
  resp.result.map (fun r => r.confidence)

/-! ### Concrete instances used by counterexamples and witnesses -/

/-- A parseable gateway response whose `recommendations` array is empty. -/
def sixlessResponse : Json := Json.jobj [("recommendations", Json.jarr [])]

/-- An empty `recommendations` array does not meet the spec's output shape. -/
theorem sixlessResponse_not_expected : ¬ specExpectedShape sixlessResponse := by
  rintro ⟨recs, hr, hlen, -⟩
  have h0 : recommendationsOf sixlessResponse = some [] := rfl
  rw [h0] at hr
  cases hr
  simp at hlen

/-- A concrete stand-in for the external pgvector cosine-distance operator:
distance 0 between equal vectors, 1/20 otherwise. -/
def distEx : List Rat → List Rat → Rat := fun a b => if a = b then 0 else 1 / 20

/-- A store holding a single embedding row owned by user 2. -/
def tableOtherUser : List EmbRow :=
  [{ user_id := 2, title := "BSecret", description := "", embedding := [5], user_rating := 5 }]

/-! ### C1 -/

/-- Claim C1 counterexample: a generative-layer response that parses but holds
zero recommendation records is returned to the caller with status 200 — it is
not surfaced as a server error, contradicting the claimed `MalformedResponse`
handling for wrong record counts. -/
theorem C1_counterexample :
    (finishRecommendations true (some sixlessResponse)).status = 200 ∧
    (finishRecommendations true (some sixlessResponse)).body = some sixlessResponse ∧
    recommendationCount sixlessResponse = some 0 ∧
    ¬ specExpectedShape sixlessResponse :=
  ⟨rfl, rfl, rfl, sixlessResponse_not_expected⟩

/-- Claim C1, amended: the handler surfaces a server error (500) exactly when
the gateway call fails or the content fails to parse as JSON; any parseable
content — in particular one with a record count other than 6 or with missing
required fields — is returned to the caller verbatim with status 200, with no
count or field validation. -/
theorem C1_amended (j : Json) (_hj : ¬ specExpectedShape j) :
    (finishRecommendations true (some j)).status = 200 ∧
    (finishRecommendations true (some j)).body = some j ∧
    (finishRecommendations true none).status = 500 ∧
    ∀ p, (finishRecommendations false p).status = 500 :=
  ⟨rfl, rfl, rfl, fun _ => rfl⟩

/-- Witness for the amended C1 at the concrete malformed response. -/
theorem C1_amended_witness :
    (¬ specExpectedShape sixlessResponse) ∧
    ((finishRecommendations true (some sixlessResponse)).status = 200 ∧
      (finishRecommendations true (some sixlessResponse)).body = some sixlessResponse ∧
      (finishRecommendations true none).status = 500 ∧
      ∀ p, (finishRecommendations false p).status = 500) :=
  ⟨sixlessResponse_not_expected, C1_amended sixlessResponse sixlessResponse_not_expected⟩

/-! ### C2 -/

/-- Claim C2: the deployed `SECURITY DEFINER` similarity RPC, whose body has no
`user_id` predicate, is evaluated at a concrete failing input: user 1 queries
while the store holds only a row owned by user 2.  The deployed RPC returns
user 2's row to user 1, and the run differs from the run over user 1's own rows
alone — the two-run noninterference the claim states is violated, and the
violation propagates into user 1's candidate set. -/
theorem C2_rls_bypass :
    matchRpcDeployed distEx tableOtherUser [1] (7 / 10) 20 =
      [{ title := "BSecret", description := "", similarity := 19 / 20 }] ∧
    matchRpcDeployed distEx (rlsVisible 1 tableOtherUser) [1] (7 / 10) 20 = [] ∧
    embeddingBasedCandidates distEx tableOtherUser [] []
        [{ embedding := [1], title := "SeedOfA" }] = ["BSecret"] ∧
    embeddingBasedCandidates distEx (rlsVisible 1 tableOtherUser) [] []
        [{ embedding := [1], title := "SeedOfA" }] = [] ∧
    (∀ r ∈ tableOtherUser, r.user_id = 2) ∧ (1 : Nat) ≠ 2 := by
  refine ⟨?_, ?_, ?_, ?_, by decide, by decide⟩
  · norm_num [matchRpcDeployed, match_show_embeddings, distEx, tableOtherUser, List.filter,
      List.insertionSort, List.orderedInsert]
  · norm_num [matchRpcDeployed, match_show_embeddings, distEx, tableOtherUser, rlsVisible,
      List.filter, List.insertionSort, List.orderedInsert]
  · norm_num [embeddingBasedCandidates, candidatesFromResults, aggregateSimilarTitles,
      addSimilar, setAdd, keepShow, matchRpcDeployed, match_show_embeddings, distEx,
      tableOtherUser, List.filter, List.insertionSort, List.orderedInsert, List.foldl]
    decide
  · norm_num [embeddingBasedCandidates, candidatesFromResults, aggregateSimilarTitles,
      addSimilar, setAdd, keepShow, matchRpcDeployed, match_show_embeddings, distEx,
      tableOtherUser, rlsVisible, List.filter, List.insertionSort, List.orderedInsert,
      List.foldl]

/-! ### C7 -/

/-- Claim C7: `handleWatchedStatus` with `watched = true` and `liked = false`
sets the matched row's rating to 1 whatever its prior rating was; with any
other `liked` value the prior rating is kept (the update payload carries no
rating). -/
theorem C7_watched_dislike_override (uid rid : Nat) (recs : List RecRow) (i : Nat)
    (rec : RecRow) (h : recs[i]? = some rec) (hid : rec.id = rid) (huser : rec.user_id = uid) :
    ((handleWatchedStatus (some uid) recs rid true (some false))[i]? =
      some { rec with watched := some true, user_rating := some 1 }) ∧
    (∀ (w : Bool) (liked : Option Bool), liked ≠ some false →
      (handleWatchedStatus (some uid) recs rid w liked)[i]? =
        some { rec with watched := some w }) := by
  constructor
  · simp only [handleWatchedStatus, List.getElem?_map, h, Option.map_some']
    rw [if_pos ⟨hid, huser⟩]
    simp
  · intro w liked hl
    simp only [handleWatchedStatus, List.getElem?_map, h, Option.map_some']
    rw [if_pos ⟨hid, huser⟩, if_neg hl]

/-- A concrete recommendation row previously rated 5. -/
def recRowEx : RecRow :=
  { id := 1, user_id := 7, title := "t", type := "Movie", genre := "g", description := "d",
    match_reason := "m", rating := "8", user_rating := some 5, watched := none }

/-- Witness for C7 at a concrete row holding a prior rating of 5. -/
theorem C7_witness :
    (([recRowEx] : List RecRow)[0]? = some recRowEx ∧ recRowEx.id = 1 ∧ recRowEx.user_id = 7) ∧
    (((handleWatchedStatus (some 7) [recRowEx] 1 true (some false))[0]? =
        some { recRowEx with watched := some true, user_rating := some 1 }) ∧
      (∀ (w : Bool) (liked : Option Bool), liked ≠ some false →
        (handleWatchedStatus (some 7) [recRowEx] 1 w liked)[0]? =
          some { recRowEx with watched := some w })) :=
  ⟨⟨rfl, rfl, rfl⟩, C7_watched_dislike_override 7 1 [recRowEx] 0 recRowEx rfl rfl rfl⟩

/-! ### C10 -/

/-- Claim C10: with all three fields present (truthy) and a rating below 4, the
generate-embedding function answers 200 without touching the store or calling
the embedding provider; conversely any invocation that calls the provider or
changes the store had a rating of at least 4. -/
theorem C10_low_rating_no_write (req : EmbedRequest) (auth : Option Nat) (ok : Bool)
    (emb : List Rat) (store : List EmbRow) :
    ((truthyStr req.title && truthyStr req.description && truthyInt req.rating) = true →
      req.rating.getD 0 < 4 →
      generate_embedding req auth ok emb store =
        { status := 200, store := store, embedCalled := false }) ∧
    (((generate_embedding req auth ok emb store).embedCalled = true ∨
        (generate_embedding req auth ok emb store).store ≠ store) →
      4 ≤ req.rating.getD 0) := by
  constructor
  · intro ht hlt
    simp only [generate_embedding, ht, Bool.true_eq_false, if_false, if_pos hlt]
  · intro hchange
    by_contra hge4
    push_neg at hge4
    cases hb : (truthyStr req.title && truthyStr req.description && truthyInt req.rating) with
    | false => simp [generate_embedding, hb] at hchange
    | true => simp [generate_embedding, hb, hge4] at hchange

/-- A concrete well-formed request carrying a rating of 2. -/
def reqLowRating : EmbedRequest := { title := some "Title", description := some "Desc", rating := some 2 }

/-- Witness for C10 at the concrete low-rating request. -/
theorem C10_witness :
    ((truthyStr reqLowRating.title && truthyStr reqLowRating.description &&
        truthyInt reqLowRating.rating) = true ∧
      reqLowRating.rating.getD 0 < 4) ∧
    generate_embedding reqLowRating (some 7) true [1] [] =
      { status := 200, store := [], embedCalled := false } :=
  ⟨⟨by decide, by decide⟩,
    (C10_low_rating_no_write reqLowRating (some 7) true [1] []).1 (by decide) (by decide)⟩

/-! ### C9 -/

/-- Confidence is untouched by the genres normalization step. -/
theorem normalizeResult_confidence (r : ModelResult) :
    (normalizeResult r).confidence = r.confidence := by
  unfold normalizeResult
  split
  · cases r.preferences <;> rfl
  · rfl

/-- A generative layer whose reported confidence drops after one more answer. -/
def oracleNonMonotone : List ConversationEntry → Option ModelResult := fun h =>
  some { ready := false, confidence := if h.length ≤ 1 then 50 else 10,
         needsClarification := false, message := none, nextQuestion := none,
         preferences := none }

/-- History with the answered mood question. -/
def historyOne : List ConversationEntry :=
  [{ question := "How is your day going so far?", answer := Sum.inl "Great!" }]

/-- The same history extended by one answered required-category (content type)
question. -/
def historyTwo : List ConversationEntry :=
  historyOne ++ [{ question := "What would you like to watch?", answer := Sum.inl "Movies only" }]

/-- Claim C9 counterexample: the endpoint returns the generative layer's
confidence verbatim, so a layer reporting 50 then 10 makes the endpoint's
confidence regress across an extension of the history by one answered
required-category question. -/
theorem C9_counterexample :
    historyTwo = historyOne ++
      [{ question := "What would you like to watch?", answer := Sum.inl "Movies only" }] ∧
    returnedConfidence (get_next_question oracleNonMonotone historyOne) = some 50 ∧
    returnedConfidence (get_next_question oracleNonMonotone historyTwo) = some 10 ∧
    ¬ ((50 : Int) ≤ 10) := by
  decide

/-- Claim C9, amended: the conversation-step endpoint enforces no confidence
monotonicity of its own — it passes the generative layer's confidence through
unchanged — so the returned confidence is non-decreasing across a history
extension exactly when the generative layer's reported confidence is. -/
theorem C9_amended (oracle : List ConversationEntry → Option ModelResult)
    (h1 h2 : List ConversationEntry) (r1 r2 : ModelResult)
    (hv1 : requestValid h1 = true) (hv2 : requestValid h2 = true)
    (ho1 : oracle h1 = some r1) (ho2 : oracle h2 = some r2) :
    returnedConfidence (get_next_question oracle h1) = some r1.confidence ∧
    returnedConfidence (get_next_question oracle h2) = some r2.confidence ∧
    (r1.confidence ≤ r2.confidence → ∃ c1 c2,
      returnedConfidence (get_next_question oracle h1) = some c1 ∧
      returnedConfidence (get_next_question oracle h2) = some c2 ∧ c1 ≤ c2) := by
  have e1 : returnedConfidence (get_next_question oracle h1) = some r1.confidence := by
    simp [get_next_question, hv1, ho1, returnedConfidence, normalizeResult_confidence]
  have e2 : returnedConfidence (get_next_question oracle h2) = some r2.confidence := by
    simp [get_next_question, hv2, ho2, returnedConfidence, normalizeResult_confidence]
  exact ⟨e1, e2, fun hle => ⟨r1.confidence, r2.confidence, e1, e2, hle⟩⟩

/-- A constant, compliant generative layer used as a witness oracle. -/
def resultConst : ModelResult :=
  { ready := true, confidence := 90, needsClarification := false, message := none,
    nextQuestion := none,
    preferences := some
      { mood := some "Great!", contentType := some "Movies only",
        watchTime := some "1-2 hours", genres := GenresValue.strVal ("Comedies, Dramas".toList),
        company := some "Alone", watchStyle := some "Focused watching",
        language := some "English only", underrated := some "No preference",
        ageRating := none } }

/-- Witness oracle returning the same parsed response on every history. -/
def oracleConst : List ConversationEntry → Option ModelResult := fun _ => some resultConst

/-- Witness for the amended C9 at a concrete compliant generative layer. -/
theorem C9_amended_witness :
    (requestValid historyOne = true ∧ requestValid historyTwo = true ∧
      oracleConst historyOne = some resultConst ∧ oracleConst historyTwo = some resultConst) ∧
    (returnedConfidence (get_next_question oracleConst historyOne) = some resultConst.confidence ∧
      returnedConfidence (get_next_question oracleConst historyTwo) = some resultConst.confidence ∧
      (resultConst.confidence ≤ resultConst.confidence → ∃ c1 c2,
        returnedConfidence (get_next_question oracleConst historyOne) = some c1 ∧
        returnedConfidence (get_next_question oracleConst historyTwo) = some c2 ∧ c1 ≤ c2)) :=
  ⟨⟨by decide, by decide, rfl, rfl⟩,
    C9_amended oracleConst historyOne historyTwo resultConst resultConst
      (by decide) (by decide) rfl rfl⟩

/-! ### C5 -/

/-- A string has no whitespace at either edge (the output shape of `trim`). -/
def noEdgeWhitespace (g : JStr) : Bool :=
  (g.head?.all fun c => ! Char.isWhitespace c) &&
    (g.getLast?.all fun c => ! Char.isWhitespace c)

/-- JavaScript `Array.prototype.join(',')`. -/
def joinComma : List JStr → JStr
  | [] => []
  | [g] => g
  | g :: gs => g ++ ',' :: joinComma gs

/-- The split-trim-filter pipeline applied by the string branch of the
normalization. -/
def splitTrimFilter (s : JStr) : List JStr :=
  ((jsSplitOnComma s).map jsTrim).filter (fun g => decide (0 < g.length))

/-- A nonempty suffix ends where the whole list ends. -/
theorem getLast?_of_suffix {α : Type} {v w : List α} (h : v <:+ w) (hv : v ≠ []) :
    w.getLast? = v.getLast? := by
  obtain ⟨t, rfl⟩ := h
  rw [List.getLast?_append]
  cases hl : v.getLast? with
  | none => exact absurd (List.getLast?_eq_none_iff.mp hl) hv
  | some a => rfl

/-- Head of `dropWhile p` fails `p`. -/
theorem head?_dropWhile_false {p : Char → Bool} {l : List Char} {c : Char}
    (h : (l.dropWhile p).head? = some c) : p c = false := by
  have h2 := List.head?_dropWhile_not p l
  rw [h] at h2
  exact h2

/-- The first character of a trimmed string is not whitespace. -/
theorem jsTrim_head_not_ws {s : JStr} {c : Char} (h : (jsTrim s).head? = some c) :
    Char.isWhitespace c = false := by
  unfold jsTrim at h
  rw [List.head?_reverse] at h
  have hv : (List.dropWhile Char.isWhitespace
      (List.dropWhile Char.isWhitespace s).reverse) ≠ [] := by
    intro h0
    rw [h0] at h
    simp at h
  have hsuf := List.dropWhile_suffix
    (l := (List.dropWhile Char.isWhitespace s).reverse) Char.isWhitespace
  have hw := getLast?_of_suffix hsuf hv
  rw [h, List.getLast?_reverse] at hw
  exact head?_dropWhile_false hw

/-- The last character of a trimmed string is not whitespace. -/
theorem jsTrim_last_not_ws {s : JStr} {c : Char} (h : (jsTrim s).getLast? = some c) :
    Char.isWhitespace c = false := by
  unfold jsTrim at h
  rw [List.getLast?_reverse] at h
  exact head?_dropWhile_false h

/-- Trimming always yields a string with no whitespace at either edge. -/
theorem jsTrim_noEdge (s : JStr) : noEdgeWhitespace (jsTrim s) = true := by
  unfold noEdgeWhitespace
  rw [Bool.and_eq_true]
  constructor
  · cases h : (jsTrim s).head? with
    | none => rfl
    | some c => simp [Option.all, jsTrim_head_not_ws h]
  · cases h : (jsTrim s).getLast? with
    | none => rfl
    | some c => simp [Option.all, jsTrim_last_not_ws h]

/-- `dropWhile` is the identity when the head already fails the predicate. -/
theorem dropWhile_eq_self_of_head {p : Char → Bool} {l : List Char}
    (h : ∀ c, l.head? = some c → p c = false) : l.dropWhile p = l := by
  cases l with
  | nil => rfl
  | cons c cs => rw [List.dropWhile_cons, if_neg (by simp [h c rfl])]

/-- Trimming is the identity on strings with clean edges. -/
theorem jsTrim_id {g : JStr} (hg : noEdgeWhitespace g = true) : jsTrim g = g := by
  unfold noEdgeWhitespace at hg
  rw [Bool.and_eq_true] at hg
  obtain ⟨h1, h2⟩ := hg
  unfold jsTrim
  have e1 : g.dropWhile Char.isWhitespace = g := by
    apply dropWhile_eq_self_of_head
    intro c hc
    rw [hc] at h1
    simpa using h1
  rw [e1]
  have e2 : g.reverse.dropWhile Char.isWhitespace = g.reverse := by
    apply dropWhile_eq_self_of_head
    intro c hc
    rw [List.head?_reverse] at hc
    rw [hc] at h2
    simpa using h2
  rw [e2, List.reverse_reverse]

/-- Splitting a comma-free string yields that one piece. -/
theorem jsSplitOnComma_no_comma {g : JStr} (hg : ',' ∉ g) : jsSplitOnComma g = [g] := by
  induction g with
  | nil => rfl
  | cons c cs ih =>
    have hc : ¬ (c = ',') := fun h => hg (h ▸ List.mem_cons_self c cs)
    simp only [jsSplitOnComma]
    rw [if_neg hc, ih (fun hm => hg (List.mem_cons_of_mem c hm))]

/-- Splitting past a comma-free first piece peels it off. -/
theorem jsSplitOnComma_append {g rest : JStr} (hg : ',' ∉ g) :
    jsSplitOnComma (g ++ ',' :: rest) = g :: jsSplitOnComma rest := by
  induction g with
  | nil => simp [jsSplitOnComma]
  | cons c cs ih =>
    have hc : ¬ (c = ',') := fun h => hg (h ▸ List.mem_cons_self c cs)
    simp only [List.cons_append, jsSplitOnComma, List.append_eq]
    rw [if_neg hc, ih (fun hm => hg (List.mem_cons_of_mem c hm))]

/-- The string branch of the normalization equals the split-trim-filter
pipeline. -/
theorem normalizeGenres_strVal (s : JStr) :
    normalizeGenres (.strVal s) = splitTrimFilter s := by
  by_cases hs : s = []
  · subst hs; rfl
  · simp [normalizeGenres, splitTrimFilter, hs]

/-- Round trip: splitting, trimming and filtering the comma-join of an already
normalized list of genres returns that list. -/
theorem splitTrimFilter_joinComma (l : List JStr)
    (hl : ∀ g ∈ l, 0 < g.length ∧ noEdgeWhitespace g = true ∧ ',' ∉ g) :
    splitTrimFilter (joinComma l) = l := by
  induction l with
  | nil => rfl
  | cons g gs ih =>
    obtain ⟨hg1, hg2, hg3⟩ := hl g (List.mem_cons_self g gs)
    have expand : ∀ t : JStr,
        splitTrimFilter t = ((jsSplitOnComma t).map jsTrim).filter
          (fun g => decide (0 < g.length)) := fun _ => rfl
    cases gs with
    | nil =>
      have hjoin : joinComma [g] = g := rfl
      rw [hjoin, expand, jsSplitOnComma_no_comma hg3, List.map_cons, jsTrim_id hg2]
      simp [hg1]
    | cons g2 gs' =>
      have hjoin : joinComma (g :: g2 :: gs') = g ++ ',' :: joinComma (g2 :: gs') := rfl
      rw [hjoin, expand, jsSplitOnComma_append hg3, List.map_cons, jsTrim_id hg2,
        List.filter_cons_of_pos (by simp [hg1]), ← expand,
        ih (fun x hx => hl x (List.mem_cons_of_mem g hx))]

/-- Claim C5 counterexample: the string `" a , b "` normalizes to trimmed
pieces, but the equivalent array `[" a ", " b "]` (its comma-join is that very
string) passes through unnormalized, untrimmed pieces included — so the output
is not always trimmed and the string/array agreement fails. -/
theorem C5_counterexample :
    normalizeGenres (.strVal (" a , b ".toList)) = ["a".toList, "b".toList] ∧
    normalizeGenres (.arrVal [" a ".toList, " b ".toList]) = [" a ".toList, " b ".toList] ∧
    joinComma [" a ".toList, " b ".toList] = " a , b ".toList ∧
    noEdgeWhitespace (" a ".toList) = false ∧
    normalizeGenres (.arrVal [" a ".toList, " b ".toList]) ≠
      normalizeGenres (.strVal (" a , b ".toList)) := by
  decide

/-- Claim C5, amended: an absent genres value becomes the empty list and a
string value is split on commas, trimmed and stripped of empty pieces — its
output pieces are non-empty with clean edges — but an array value passes
through unchanged, so a comma-joined string and the equivalent array agree
exactly when the array is already in normalized (non-empty, trimmed,
comma-free) form. -/
theorem C5_amended :
    normalizeGenres GenresValue.absent = [] ∧
    (∀ l, normalizeGenres (GenresValue.arrVal l) = l) ∧
    (∀ (s g : JStr), g ∈ normalizeGenres (GenresValue.strVal s) →
      0 < g.length ∧ noEdgeWhitespace g = true) ∧
    (∀ l : List JStr, (∀ g ∈ l, 0 < g.length ∧ noEdgeWhitespace g = true ∧ ',' ∉ g) →
      normalizeGenres (GenresValue.strVal (joinComma l)) =
        normalizeGenres (GenresValue.arrVal l)) := by
  refine ⟨rfl, fun _ => rfl, ?_, ?_⟩
  · intro s g hg
    rw [normalizeGenres_strVal] at hg
    unfold splitTrimFilter at hg
    rw [List.mem_filter] at hg
    obtain ⟨hmem, hlen⟩ := hg
    rw [List.mem_map] at hmem
    obtain ⟨piece, -, rfl⟩ := hmem
    exact ⟨by simpa using hlen, jsTrim_noEdge piece⟩
  · intro l hl
    rw [normalizeGenres_strVal, splitTrimFilter_joinComma l hl]
    rfl

/-- A concrete genre already in normalized form. -/
def goodGenre : JStr := "Comedies".toList

/-- Witness for the amended C5 at concrete string and array inputs. -/
theorem C5_amended_witness :
    ("a".toList ∈ normalizeGenres (GenresValue.strVal (" a ,b".toList)) ∧
      0 < "a".toList.length ∧ noEdgeWhitespace "a".toList = true) ∧
    ((∀ g ∈ [goodGenre], 0 < g.length ∧ noEdgeWhitespace g = true ∧ ',' ∉ g) ∧
      normalizeGenres (GenresValue.strVal (joinComma [goodGenre])) =
        normalizeGenres (GenresValue.arrVal [goodGenre])) := by
  constructor
  · exact ⟨by decide, C5_amended.2.2.1 (" a ,b".toList) ("a".toList) (by decide)⟩
  · exact ⟨by decide, C5_amended.2.2.2 [goodGenre] (by decide)⟩

/-! ### C3 and C4: the aggregate as keep-first deduplication in seed order -/

/-- Unfolding equation for `firstOccurrences` on a cons. -/
theorem firstOccurrences_cons (x : String) (xs : List String) :
    firstOccurrences (x :: xs) =
      x :: (firstOccurrences xs).filter (fun y => decide (y ≠ x)) := rfl

/-- Keep-first deduplication commutes with filtering. -/
theorem firstOccurrences_filter (p : String → Bool) (l : List String) :
    firstOccurrences (l.filter p) = (firstOccurrences l).filter p := by
  induction l with
  | nil => rfl
  | cons x xs ih =>
    by_cases hp : p x = true
    · rw [List.filter_cons_of_pos hp, firstOccurrences_cons, ih, firstOccurrences_cons,
        List.filter_cons_of_pos hp]
      congr 1
      rw [List.filter_filter, List.filter_filter]
      exact List.filter_congr (fun a _ => Bool.and_comm _ _)
    · rw [Bool.not_eq_true] at hp
      rw [List.filter_cons_of_neg (by simp [hp]), ih, firstOccurrences_cons,
        List.filter_cons_of_neg (by simp [hp]), List.filter_filter]
      apply List.filter_congr
      intro a _
      by_cases hax : a = x
      · subst hax; simp [hp]
      · simp [hax]

/-- Everything produced by keep-first deduplication comes from the input. -/
theorem firstOccurrences_subset (l : List String) : firstOccurrences l ⊆ l := by
  induction l with
  | nil => simp [firstOccurrences]
  | cons x xs ih =>
    intro t ht
    rw [firstOccurrences_cons] at ht
    rcases List.mem_cons.mp ht with h | h
    · exact h ▸ List.mem_cons_self x xs
    · exact List.mem_cons_of_mem x (ih (List.mem_of_mem_filter h))

/-- Folding insertion-ordered set-adds appends the first occurrences of the
not-yet-present elements. -/
theorem foldl_setAdd_eq : ∀ (l : List String) (acc : List String),
    l.foldl setAdd acc = acc ++ firstOccurrences (l.filter (fun x => decide (x ∉ acc))) := by
  intro l
  induction l with
  | nil => intro acc; simp [firstOccurrences]
  | cons x xs ih =>
    intro acc
    rw [List.foldl_cons]
    by_cases hx : x ∈ acc
    · have hsa : setAdd acc x = acc := by unfold setAdd; rw [if_pos hx]
      rw [hsa, ih acc, List.filter_cons_of_neg (by simp [hx])]
    · have hsa : setAdd acc x = acc ++ [x] := by unfold setAdd; rw [if_neg hx]
      rw [hsa, ih (acc ++ [x]), List.filter_cons_of_pos (by simp [hx]),
        firstOccurrences_cons, List.append_assoc, List.singleton_append]
      congr 2
      have hpred : xs.filter (fun y => decide (y ∉ acc ++ [x])) =
          (xs.filter (fun y => decide (y ∉ acc))).filter (fun y => decide (y ≠ x)) := by
        rw [List.filter_filter]
        apply List.filter_congr
        intro a _
        by_cases h1 : a ∈ acc <;> by_cases h2 : a = x <;> simp [h1, h2]
      rw [hpred, firstOccurrences_filter]

/-- One seed's pass over the accumulated set equals folding set-adds over that
seed's eligible titles. -/
theorem addSimilar_eq (w p : List String) (st : String) (rows : List SimRow) :
    ∀ acc, addSimilar w p st rows acc = (eligibleTitles w p st rows).foldl setAdd acc := by
  induction rows with
  | nil => intro acc; rfl
  | cons r rows ih =>
    intro acc
    by_cases hk : keepShow w p st r.title = true
    · have hl : addSimilar w p st (r :: rows) acc = addSimilar w p st rows (setAdd acc r.title) := by
        unfold addSimilar
        rw [List.foldl_cons]
        simp [hk]
      have hr : eligibleTitles w p st (r :: rows) = r.title :: eligibleTitles w p st rows := by
        simp [eligibleTitles, List.filter_cons, hk]
      rw [hl, hr, List.foldl_cons, ih]
    · have hl : addSimilar w p st (r :: rows) acc = addSimilar w p st rows acc := by
        unfold addSimilar
        rw [List.foldl_cons]
        simp [hk]
      have hr : eligibleTitles w p st (r :: rows) = eligibleTitles w p st rows := by
        simp [eligibleTitles, List.filter_cons, hk]
      rw [hl, hr, ih]

/-- The whole loop equals keep-first deduplication of the eligible titles of
every seed's results, concatenated in seed order. -/
theorem aggregateSimilarTitles_eq (w p : List String) (qrs : List (String × List SimRow)) :
    aggregateSimilarTitles w p qrs =
      firstOccurrences (qrs.flatMap (fun q => eligibleTitles w p q.1 q.2)) := by
  have main : ∀ (qrs : List (String × List SimRow)) (acc : List String),
      qrs.foldl (fun acc pr => addSimilar w p pr.1 pr.2 acc) acc =
        (qrs.flatMap (fun q => eligibleTitles w p q.1 q.2)).foldl setAdd acc := by
    intro qrs
    induction qrs with
    | nil => intro acc; rfl
    | cons q qrs ih =>
      intro acc
      simp only [List.foldl_cons, List.flatMap_cons, List.foldl_append]
      rw [addSimilar_eq w p q.1 q.2 acc]
      exact ih _
  unfold aggregateSimilarTitles
  rw [main qrs [], foldl_setAdd_eq]
  simp

/-- The eligibility filter in full: kept titles differ from the current seed's
title and avoid both exclusion lists. -/
theorem keepShow_spec {w p : List String} {st t : String} (h : keepShow w p st t = true) :
    t ≠ st ∧ t ∉ w ∧ t ∉ p := by
  unfold keepShow at h
  simp only [Bool.and_eq_true, decide_eq_true_eq] at h
  exact ⟨h.1.1, h.1.2, h.2⟩

/-- Claim C4, amended: the retained candidate set is the first 30 distinct
eligible titles in seed-processing order — each seed's result list (itself
similarity-descending) contributes before any later seed's — not a global
similarity-descending reordering across all queries. -/
theorem C4_amended (w p : List String) (qrs : List (String × List SimRow)) :
    candidatesFromResults w p qrs =
      (firstOccurrences (qrs.flatMap (fun q => eligibleTitles w p q.1 q.2))).take 30 := by
  unfold candidatesFromResults
  rw [aggregateSimilarTitles_eq]

/-- Twenty results of an earlier seed's query, all with similarity 0.71. -/
def rowsA : List SimRow :=
  (List.range 20).map (fun i =>
    { title := "A" ++ toString i, description := "", similarity := (71 : Rat) / 100 })

/-- Twenty results of a later seed's query, similarities 0.99 down to 0.80 —
every one above the earlier seed's 0.71. -/
def rowsB : List SimRow :=
  (List.range 20).map (fun i =>
    { title := "B" ++ toString i, description := "", similarity := ((99 : Rat) - i) / 100 })

/-- Two per-seed query results whose union holds 40 distinct titles. -/
def pairsC4 : List (String × List SimRow) := [("S1", rowsA), ("S2", rowsB)]

/-- The tenth row of the earlier seed's results. -/
def rowA10 : SimRow :=
  { title := "A" ++ toString 10, description := "", similarity := (71 : Rat) / 100 }

/-- The twentieth row of the later seed's results. -/
def rowB19 : SimRow :=
  { title := "B" ++ toString 19, description := "", similarity := ((99 : Rat) - (19 : Nat)) / 100 }

set_option maxRecDepth 8192 in
/-- Claim C4 counterexample: with 40 distinct eligible titles, the retained 30
keep every title of the earlier seed (similarity 0.71) and drop the later
seed's title B19 of similarity 0.80 — the cap is insertion-ordered, not a
global similarity-descending top 30, and a higher-similarity title from a
later seed is not retained in preference to a lower-similarity one from an
earlier seed. -/
theorem C4_counterexample :
    "A10" ∈ candidatesFromResults [] [] pairsC4 ∧
    "B19" ∉ candidatesFromResults [] [] pairsC4 ∧
    (aggregateSimilarTitles [] [] pairsC4).length = 40 ∧
    (∃ r ∈ rowsA, r.title = "A10" ∧ r.similarity = (71 : Rat) / 100) ∧
    (∃ r ∈ rowsB, r.title = "B19" ∧ r.similarity = (80 : Rat) / 100) ∧
    (71 : Rat) / 100 < (80 : Rat) / 100 := by
  refine ⟨by decide, by decide, by decide, ?_, ?_, by norm_num⟩
  · refine ⟨rowA10, ?_, by decide, rfl⟩
    have h10 : (10 : Nat) ∈ List.range 20 := List.mem_range.mpr (by norm_num)
    exact List.mem_map_of_mem (fun i : Nat => ({ title := "A" ++ toString i, description := "", similarity := (71 : Rat) / 100 } : SimRow)) h10
  · refine ⟨rowB19, ?_, by decide, by norm_num [rowB19]⟩
    have h19 : (19 : Nat) ∈ List.range 20 := List.mem_range.mpr (by norm_num)
    exact List.mem_map_of_mem (fun i : Nat => ({ title := "B" ++ toString i, description := "", similarity := ((99 : Rat) - i) / 100 } : SimRow)) h19

/-- Claim C3, amended: every retained candidate avoids the watched list and
the previously-recommended list, and comes from some seed's query result while
differing from that seed's own title — but only the producing seed's title is
excluded, so the aggregate may contain a different seed's title. -/
theorem C3_amended (dist : List Rat → List Rat → Rat) (table : List EmbRow)
    (watched prev : List String) (seeds : List SeedEmb) (t : String)
    (ht : t ∈ embeddingBasedCandidates dist table watched prev seeds) :
    t ∉ watched ∧ t ∉ prev ∧
      ∃ s ∈ seeds, t ≠ s.title ∧
        ∃ r ∈ matchRpcDeployed dist table s.embedding (7 / 10) 20, r.title = t := by
  unfold embeddingBasedCandidates candidatesFromResults at ht
  rw [aggregateSimilarTitles_eq] at ht
  have ht2 := firstOccurrences_subset _ (List.take_subset 30 _ ht)
  rw [List.mem_flatMap] at ht2
  obtain ⟨q, hq, hqt⟩ := ht2
  rw [List.mem_map] at hq
  obtain ⟨s, hs, rfl⟩ := hq
  unfold eligibleTitles at hqt
  rw [List.mem_map] at hqt
  obtain ⟨r, hr, rfl⟩ := hqt
  obtain ⟨hrmem, hk⟩ := List.mem_filter.mp hr
  obtain ⟨hne, hw, hp⟩ := keepShow_spec hk
  exact ⟨hw, hp, s, hs, hne, r, hrmem, rfl⟩

/-- Two embedding rows of user 1 that serve as each other's neighbors. -/
def tableSeeds : List EmbRow :=
  [{ user_id := 1, title := "X", description := "", embedding := [1], user_rating := 5 },
   { user_id := 1, title := "Y", description := "", embedding := [2], user_rating := 5 }]

/-- The two seeds drawn from that store. -/
def seedsXY : List SeedEmb :=
  [{ embedding := [1], title := "X" }, { embedding := [2], title := "Y" }]

/-- Evaluation of the deployed pipeline on the two-seed store. -/
theorem candidates_tableSeeds_eval :
    embeddingBasedCandidates distEx tableSeeds [] [] seedsXY = ["Y", "X"] := by
  norm_num [embeddingBasedCandidates, candidatesFromResults, aggregateSimilarTitles,
    addSimilar, setAdd, keepShow, matchRpcDeployed, match_show_embeddings, distEx,
    tableSeeds, seedsXY, List.filter, List.insertionSort, List.orderedInsert, List.foldl]
  decide

/-- Claim C3 counterexample: with two seeds X and Y, Y's query returns X above
threshold; the per-query filter only excludes the querying seed's own title,
so the aggregate candidate set contains the seed titles X and Y even with
empty watched and previously-recommended lists. -/
theorem C3_counterexample :
    embeddingBasedCandidates distEx tableSeeds [] [] seedsXY = ["Y", "X"] ∧
    (∃ s ∈ seedsXY, s.title = "X") ∧ (∃ s ∈ seedsXY, s.title = "Y") := by
  refine ⟨candidates_tableSeeds_eval, ?_, ?_⟩
  · exact ⟨{ embedding := [1], title := "X" }, by decide, rfl⟩
  · exact ⟨{ embedding := [2], title := "Y" }, by decide, rfl⟩

/-- Witness for the amended C3 at the concrete two-seed store. -/
theorem C3_amended_witness :
    ("X" ∈ embeddingBasedCandidates distEx tableSeeds [] [] seedsXY) ∧
    ("X" ∉ ([] : List String) ∧ "X" ∉ ([] : List String) ∧
      ∃ s ∈ seedsXY, "X" ≠ s.title ∧
        ∃ r ∈ matchRpcDeployed distEx tableSeeds s.embedding (7 / 10) 20, r.title = "X") := by
  have hmem : "X" ∈ embeddingBasedCandidates distEx tableSeeds [] [] seedsXY := by
    rw [candidates_tableSeeds_eval]
    decide
  exact ⟨hmem, C3_amended distEx tableSeeds [] [] seedsXY "X" hmem⟩

/-! ### C6: invariants of the embedding store -/

/-- The ON CONFLICT update never changes the key columns. -/
theorem overwriteRow_user_id (row r : EmbRow) : (overwriteRow row r).user_id = r.user_id := by
  unfold overwriteRow; split <;> rfl

/-- The ON CONFLICT update never changes the title column. -/
theorem overwriteRow_title (row r : EmbRow) : (overwriteRow row r).title = r.title := by
  unfold overwriteRow; split <;> rfl

/-- Key matching is invariant under the ON CONFLICT update. -/
theorem keyMatch_overwriteRow (row : EmbRow) (uid : Nat) (t : String) (r : EmbRow) :
    keyMatch uid t (overwriteRow row r) = keyMatch uid t r := by
  unfold keyMatch
  rw [overwriteRow_user_id, overwriteRow_title]

/-- A store whose rows all fail a key has no rows counted for it. -/
theorem countKey_eq_zero {store : List EmbRow} {uid : Nat} {t : String}
    (h : ∀ r ∈ store, keyMatch uid t r = false) : countKey store uid t = 0 := by
  unfold countKey
  rw [List.length_eq_zero]
  exact List.filter_eq_nil_iff.mpr (fun a ha => by simp [h a ha])

/-- In a duplicate-free store, a present key is counted exactly once. -/
theorem countKey_eq_one_of_any {store : List EmbRow} {uid : Nat} {t : String}
    (hany : store.any (keyMatch uid t) = true)
    (hp : store.Pairwise (fun a b => ¬ sameKey a b)) : countKey store uid t = 1 := by
  induction store with
  | nil => simp at hany
  | cons r rest ih =>
    rw [List.pairwise_cons] at hp
    obtain ⟨hr, hp'⟩ := hp
    by_cases hk : keyMatch uid t r = true
    · have hzero : countKey rest uid t = 0 := by
        apply countKey_eq_zero
        intro b hb
        by_contra hbk
        rw [Bool.not_eq_false] at hbk
        have h1 : r.user_id = uid ∧ r.title = t := by
          simpa [keyMatch] using hk
        have h2 : b.user_id = uid ∧ b.title = t := by
          simpa [keyMatch] using hbk
        exact hr b hb ⟨h1.1.trans h2.1.symm, h1.2.trans h2.2.symm⟩
      unfold countKey at hzero ⊢
      rw [List.filter_cons_of_pos hk, List.length_cons, hzero]
    · have hany' : rest.any (keyMatch uid t) = true := by
        rcases List.any_eq_true.mp hany with ⟨x, hx, hxk⟩
        rcases List.mem_cons.mp hx with rfl | hx'
        · exact absurd hxk hk
        · exact List.any_eq_true.mpr ⟨x, hx', hxk⟩
      unfold countKey at ih ⊢
      rw [List.filter_cons_of_neg hk]
      exact ih hany' hp'

/-- Upserting leaves exactly one row for the upserted key in a well-formed
store. -/
theorem countKey_upsert_self (store : List EmbRow) (row : EmbRow) (hWF : StoreWF store) :
    countKey (upsertShowEmbedding store row) row.user_id row.title = 1 := by
  unfold upsertShowEmbedding
  by_cases hany : store.any (keyMatch row.user_id row.title) = true
  · rw [if_pos hany]
    have hsame : countKey (store.map (overwriteRow row)) row.user_id row.title =
        countKey store row.user_id row.title := by
      unfold countKey
      rw [List.filter_map]
      rw [List.length_map]
      congr 1
      apply List.filter_congr
      intro a _
      exact keyMatch_overwriteRow row row.user_id row.title a
    rw [hsame]
    exact countKey_eq_one_of_any hany hWF.2
  · rw [if_neg hany]
    rw [Bool.not_eq_true] at hany
    have hzero : countKey store row.user_id row.title = 0 := by
      apply countKey_eq_zero
      intro r hr
      simpa using List.any_eq_false.mp hany r hr
    unfold countKey at hzero ⊢
    rw [List.filter_append, List.length_append, hzero]
    simp [keyMatch]

/-- Upserting preserves well-formedness when the new rating satisfies the
CHECK constraint. -/
theorem StoreWF_upsert {store : List EmbRow} {row : EmbRow} (hWF : StoreWF store)
    (h4 : 4 ≤ row.user_rating) (h5 : row.user_rating ≤ 5) :
    StoreWF (upsertShowEmbedding store row) := by
  unfold upsertShowEmbedding
  by_cases hany : store.any (keyMatch row.user_id row.title) = true
  · rw [if_pos hany]
    constructor
    · intro r hr
      rw [List.mem_map] at hr
      obtain ⟨x, hx, rfl⟩ := hr
      unfold overwriteRow
      split
      · exact ⟨h4, h5⟩
      · exact hWF.1 x hx
    · rw [List.pairwise_map]
      apply hWF.2.imp
      intro a b hnot hsk
      apply hnot
      unfold sameKey at hsk ⊢
      rwa [overwriteRow_user_id, overwriteRow_user_id, overwriteRow_title,
        overwriteRow_title] at hsk
  · rw [if_neg hany]
    rw [Bool.not_eq_true, List.any_eq_false] at hany
    constructor
    · intro r hr
      rcases List.mem_append.mp hr with h | h
      · exact hWF.1 r h
      · rw [List.mem_singleton.mp h]
        exact ⟨h4, h5⟩
    · rw [List.pairwise_append]
      refine ⟨hWF.2, List.pairwise_singleton _ _, ?_⟩
      intro a ha b hb
      rw [List.mem_singleton.mp hb]
      intro hsk
      exact hany a ha (by simp [keyMatch, hsk.1, hsk.2])

/-- Upserting over an existing key does not change the number of rows. -/
theorem length_upsert_of_any {store : List EmbRow} {row : EmbRow}
    (hany : store.any (keyMatch row.user_id row.title) = true) :
    (upsertShowEmbedding store row).length = store.length := by
  unfold upsertShowEmbedding
  rw [if_pos hany, List.length_map]

/-- Every invocation of the generate-embedding function preserves
well-formedness of the store. -/
theorem generate_embedding_WF (req : EmbedRequest) (auth : Option Nat) (ok : Bool)
    (emb : List Rat) (store : List EmbRow) (hWF : StoreWF store) :
    StoreWF ((generate_embedding req auth ok emb store).store) := by
  unfold generate_embedding
  split
  · exact hWF
  · split
    · exact hWF
    · split
      · exact hWF
      · split
        · split
          · next hcheck =>
            rw [showEmbeddingsCheckOk, Bool.and_eq_true, decide_eq_true_eq,
              decide_eq_true_eq] at hcheck
            exact StoreWF_upsert hWF hcheck.1 hcheck.2
          · exact hWF
        · exact hWF

/-- The empty store is well-formed. -/
theorem StoreWF_nil : StoreWF [] := ⟨fun r hr => absurd hr (List.not_mem_nil r), List.Pairwise.nil⟩

/-- Claim C6: the store invariant — every row rated in [4,5], no duplicate
(user, title) key — holds in every reachable store; a rating below 4 writes
nothing; a rating in [4,5] leaves exactly one row for its key; and re-rating
an existing key overwrites without growing the store. -/
theorem C6_store_invariant (store : List EmbRow) (hWF : StoreWF store)
    (uid : Nat) (t d : String) (emb : List Rat) (ht : t ≠ "") (hd : d ≠ "") :
    (∀ events, StoreWF (runEmbedEvents events)) ∧
    (∀ req auth ok e, StoreWF ((generate_embedding req auth ok e store).store)) ∧
    (∀ r : Int, r < 4 →
      (generate_embedding ⟨some t, some d, some r⟩ (some uid) true emb store).store = store) ∧
    (∀ r : Int, 4 ≤ r → r ≤ 5 →
      countKey ((generate_embedding ⟨some t, some d, some r⟩ (some uid) true emb store).store)
        uid t = 1) ∧
    (∀ r : Int, 4 ≤ r → r ≤ 5 → store.any (keyMatch uid t) = true →
      ((generate_embedding ⟨some t, some d, some r⟩ (some uid) true emb store).store).length =
        store.length) := by
  have hpath : ∀ r : Int, 4 ≤ r → r ≤ 5 →
      (generate_embedding ⟨some t, some d, some r⟩ (some uid) true emb store).store =
        upsertShowEmbedding store
          { user_id := uid, title := t, description := d, embedding := emb, user_rating := r } := by
    intro r h4 h5
    have hr0 : r ≠ 0 := by omega
    have hcond : (truthyStr (some t) && truthyStr (some d) && truthyInt (some r)) = true := by
      simp [truthyStr, truthyInt, ht, hd, hr0]
    have hnlt : ¬ (r < 4) := by omega
    have hcheck : showEmbeddingsCheckOk r = true := by
      simp [showEmbeddingsCheckOk, h4, h5]
    simp [generate_embedding, hcond, hnlt, hcheck]
  refine ⟨?_, ?_, ?_, ?_, ?_⟩
  · intro events
    unfold runEmbedEvents
    induction events using List.reverseRecOn with
    | nil => exact StoreWF_nil
    | append_singleton es e ih =>
      rw [List.foldl_append, List.foldl_cons, List.foldl_nil]
      exact generate_embedding_WF e.req e.auth e.embedServiceOk e.emb _ ih
  · intro req auth ok e
    exact generate_embedding_WF req auth ok e store hWF
  · intro r hr
    unfold generate_embedding
    split
    · rfl
    · split
      · rfl
      · next hn => exact absurd hr hn
  · intro r h4 h5
    rw [hpath r h4 h5]
    exact countKey_upsert_self store _ hWF
  · intro r h4 h5 hany
    rw [hpath r h4 h5]
    exact length_upsert_of_any hany

/-- A concrete well-formed store holding one row for (7, "T"). -/
def storeOne : List EmbRow :=
  [{ user_id := 7, title := "T", description := "old", embedding := [0], user_rating := 4 }]

/-- Witness for C6 at the concrete one-row store. -/
theorem C6_witness :
    (StoreWF storeOne ∧ "T" ≠ "" ∧ "D" ≠ "") ∧
    ((∀ events, StoreWF (runEmbedEvents events)) ∧
      (∀ req auth ok e, StoreWF ((generate_embedding req auth ok e storeOne).store)) ∧
      (∀ r : Int, r < 4 →
        (generate_embedding ⟨some "T", some "D", some r⟩ (some 7) true [1] storeOne).store =
          storeOne) ∧
      (∀ r : Int, 4 ≤ r → r ≤ 5 →
        countKey ((generate_embedding ⟨some "T", some "D", some r⟩ (some 7) true [1]
          storeOne).store) 7 "T" = 1) ∧
      (∀ r : Int, 4 ≤ r → r ≤ 5 → storeOne.any (keyMatch 7 "T") = true →
        ((generate_embedding ⟨some "T", some "D", some r⟩ (some 7) true [1]
          storeOne).store).length = storeOne.length)) :=
  ⟨⟨⟨by decide, by decide⟩, by decide, by decide⟩,
    C6_store_invariant storeOne ⟨by decide, by decide⟩ 7 "T" "D" [1] (by decide) (by decide)⟩

/-! ### C8: characterising the pattern analyzer -/

/-- Sum of the ratings recorded for one genre. -/
def genreTotal (h : List RatedRow) (g : String) : Int :=
  ((h.filter (fun r => decide (r.genre = g))).map (fun r => r.user_rating)).sum

/-- Number of ratings recorded for one genre. -/
def genreCount (h : List RatedRow) (g : String) : Nat :=
  (h.filter (fun r => decide (r.genre = g))).length

/-- The (total, count) pair the accumulator stores for a genre, (0, 0) when
the genre has no entry yet. -/
def statOf (acc : List (String × Int × Nat)) (g : String) : Int × Nat :=
  ((acc.find? (fun p => decide (p.1 = g))).map (fun p => p.2)).getD (0, 0)

/-- Does the accumulator carry an entry for the genre? -/
def hasKey (acc : List (String × Int × Nat)) (g : String) : Bool :=
  acc.any (fun p => decide (p.1 = g))

/-- The accumulator's genre keys are pairwise distinct. -/
def keysOK (acc : List (String × Int × Nat)) : Prop :=
  acc.Pairwise (fun a b => a.1 ≠ b.1)

/-- Bumping a stat entry never changes its genre key. -/
theorem bumpStat_fst (g : String) (r : Int) (p : String × Int × Nat) :
    (bumpStat g r p).1 = p.1 := by
  unfold bumpStat; split <;> rfl

/-- Bumping a genre adds the rating to that genre's total and one to its
count. -/
theorem statOf_bump_same (acc : List (String × Int × Nat)) (g : String) (r : Int) :
    statOf (bumpGenre acc g r) g = ((statOf acc g).1 + r, (statOf acc g).2 + 1) := by
  unfold bumpGenre
  by_cases hany : acc.any (fun p => decide (p.1 = g)) = true
  · rw [if_pos hany]
    rcases List.any_eq_true.mp hany with ⟨x, hx, hxp⟩
    obtain ⟨q, hq⟩ := Option.isSome_iff_exists.mp
      ((List.find?_isSome (p := fun p : String × Int × Nat => decide (p.1 = g))).mpr
        ⟨x, hx, hxp⟩)
    have hq1 : q.1 = g := by simpa using List.find?_some hq
    have hpc : ((fun p : String × Int × Nat => decide (p.1 = g)) ∘ bumpStat g r) =
        (fun p : String × Int × Nat => decide (p.1 = g)) := by
      funext p
      simp [Function.comp, bumpStat_fst]
    unfold statOf
    rw [List.find?_map, hpc, hq]
    simp [bumpStat, hq1]
  · rw [if_neg hany]
    rw [Bool.not_eq_true, List.any_eq_false] at hany
    have hnone : acc.find? (fun p => decide (p.1 = g)) = none := by
      rw [List.find?_eq_none]
      intro x hx
      simpa using hany x hx
    have hfind : (acc ++ [(g, r, 1)]).find? (fun p => decide (p.1 = g)) = some (g, r, 1) := by
      rw [List.find?_append, hnone]
      simp
    unfold statOf
    rw [hfind, hnone]
    simp

/-- Bumping a genre leaves every other genre's stats unchanged. -/
theorem statOf_bump_other (acc : List (String × Int × Nat)) (g g' : String) (r : Int)
    (hne : g' ≠ g) : statOf (bumpGenre acc g r) g' = statOf acc g' := by
  unfold bumpGenre
  by_cases hany : acc.any (fun p => decide (p.1 = g)) = true
  · rw [if_pos hany]
    have hpc : ((fun p : String × Int × Nat => decide (p.1 = g')) ∘ bumpStat g r) =
        (fun p : String × Int × Nat => decide (p.1 = g')) := by
      funext p
      simp [Function.comp, bumpStat_fst]
    unfold statOf
    rw [List.find?_map, hpc]
    cases hfind : acc.find? (fun p => decide (p.1 = g')) with
    | none => rfl
    | some q =>
      have hq1 : q.1 = g' := by simpa using List.find?_some hfind
      have hfix : bumpStat g r q = q := by
        unfold bumpStat
        rw [if_neg (by rw [hq1]; exact hne)]
      simp [hfix]
  · rw [if_neg hany]
    unfold statOf
    rw [List.find?_append]
    have h2 : ([((g, r, 1) : String × Int × Nat)]).find? (fun p => decide (p.1 = g')) = none := by
      have hgg : g ≠ g' := fun h => hne h.symm
      simp [List.find?_cons, hgg]
    rw [h2, Option.or_none]

/-- Bumping a genre adds exactly that genre to the accumulator's keys. -/
theorem hasKey_bump (acc : List (String × Int × Nat)) (g g' : String) (r : Int) :
    hasKey (bumpGenre acc g r) g' = (hasKey acc g' || decide (g' = g)) := by
  unfold bumpGenre hasKey
  by_cases hany : acc.any (fun p => decide (p.1 = g)) = true
  · rw [if_pos hany]
    have hpc : ((fun p : String × Int × Nat => decide (p.1 = g')) ∘ bumpStat g r) =
        (fun p : String × Int × Nat => decide (p.1 = g')) := by
      funext p
      simp [Function.comp, bumpStat_fst]
    rw [List.any_map, hpc]
    by_cases hg : g' = g
    · subst hg
      simp [hany]
    · simp [hg]
  · rw [if_neg hany]
    rw [List.any_append]
    by_cases hg : g' = g
    · subst hg
      simp
    · have hgg : g ≠ g' := fun h => hg h.symm
      simp [hgg, hg]

/-- Bumping preserves distinctness of the accumulator's keys. -/
theorem keysOK_bump (acc : List (String × Int × Nat)) (g : String) (r : Int)
    (h : keysOK acc) : keysOK (bumpGenre acc g r) := by
  unfold bumpGenre
  by_cases hany : acc.any (fun p => decide (p.1 = g)) = true
  · rw [if_pos hany]
    unfold keysOK at h ⊢
    rw [List.pairwise_map]
    apply h.imp
    intro a b hne
    rw [bumpStat_fst, bumpStat_fst]
    exact hne
  · rw [if_neg hany]
    rw [Bool.not_eq_true, List.any_eq_false] at hany
    unfold keysOK at h ⊢
    rw [List.pairwise_append]
    refine ⟨h, List.pairwise_singleton _ _, ?_⟩
    intro a ha b hb
    rw [List.mem_singleton.mp hb]
    simpa using hany a ha

/-- Folding the rating history accumulates, per genre, the filter-based total
and count, and records exactly the genres that occur. -/
theorem genreStats_fold (h : List RatedRow) : ∀ acc,
    (∀ g, statOf (h.foldl (fun a rr => bumpGenre a rr.genre rr.user_rating) acc) g =
        ((statOf acc g).1 + genreTotal h g, (statOf acc g).2 + genreCount h g)) ∧
    (∀ g, hasKey (h.foldl (fun a rr => bumpGenre a rr.genre rr.user_rating) acc) g =
        (hasKey acc g || decide (0 < genreCount h g))) := by
  induction h with
  | nil =>
    intro acc
    constructor
    · intro g
      simp [genreTotal, genreCount]
    · intro g
      simp [genreCount]
  | cons rr h ih =>
    intro acc
    simp only [List.foldl_cons]
    constructor
    · intro g
      rw [(ih (bumpGenre acc rr.genre rr.user_rating)).1 g]
      by_cases hg : g = rr.genre
      · subst hg
        rw [statOf_bump_same]
        have ht : genreTotal (rr :: h) rr.genre = rr.user_rating + genreTotal h rr.genre := by
          unfold genreTotal
          rw [List.filter_cons_of_pos (by simp), List.map_cons, List.sum_cons]
        have hc : genreCount (rr :: h) rr.genre = genreCount h rr.genre + 1 := by
          unfold genreCount
          rw [List.filter_cons_of_pos (by simp), List.length_cons]
        rw [ht, hc]
        simp only [Prod.mk.injEq]
        constructor <;> omega
      · rw [statOf_bump_other _ _ _ _ hg]
        have hgg : ¬ (rr.genre = g) := fun hx => hg hx.symm
        have ht : genreTotal (rr :: h) g = genreTotal h g := by
          unfold genreTotal
          rw [List.filter_cons_of_neg (by simp [hgg])]
        have hc : genreCount (rr :: h) g = genreCount h g := by
          unfold genreCount
          rw [List.filter_cons_of_neg (by simp [hgg])]
        rw [ht, hc]
    · intro g
      rw [(ih (bumpGenre acc rr.genre rr.user_rating)).2 g, hasKey_bump]
      by_cases hg : g = rr.genre
      · subst hg
        have hc : genreCount (rr :: h) rr.genre = genreCount h rr.genre + 1 := by
          unfold genreCount
          rw [List.filter_cons_of_pos (by simp), List.length_cons]
        simp [hc]
      · have hgg : ¬ (rr.genre = g) := fun hx => hg hx.symm
        have hc : genreCount (rr :: h) g = genreCount h g := by
          unfold genreCount
          rw [List.filter_cons_of_neg (by simp [hgg])]
        simp [hc, hg, Bool.or_assoc, Bool.or_comm]

/-- The finished `genreStats` object stores, for each genre, exactly the
filter-based total and count of that genre's ratings. -/
theorem statOf_genreStats (h : List RatedRow) (g : String) :
    statOf (genreStats h) g = (genreTotal h g, genreCount h g) := by
  have hm := (genreStats_fold h []).1 g
  unfold genreStats
  rw [hm]
  simp [statOf]

/-- The finished `genreStats` object has a key exactly for the genres that
occur in the history. -/
theorem hasKey_genreStats (h : List RatedRow) (g : String) :
    hasKey (genreStats h) g = decide (0 < genreCount h g) := by
  have hm := (genreStats_fold h []).2 g
  unfold genreStats
  rw [hm]
  simp [hasKey]

/-- The finished `genreStats` object has pairwise distinct genre keys. -/
theorem keysOK_genreStats (h : List RatedRow) : keysOK (genreStats h) := by
  unfold genreStats
  have main : ∀ acc, keysOK acc →
      keysOK (h.foldl (fun a rr => bumpGenre a rr.genre rr.user_rating) acc) := by
    induction h with
    | nil => intro acc hk; exact hk
    | cons rr h ih =>
      intro acc hk
      simp only [List.foldl_cons]
      exact ih _ (keysOK_bump acc rr.genre rr.user_rating hk)
  exact main [] List.Pairwise.nil

/-- In a key-distinct accumulator, membership of an entry is equivalent to its
key being present with exactly its stats. -/
theorem mem_iff_stat {acc : List (String × Int × Nat)} (hk : keysOK acc)
    (p : String × Int × Nat) :
    p ∈ acc ↔ (hasKey acc p.1 = true ∧ statOf acc p.1 = p.2) := by
  induction acc with
  | nil => simp [hasKey]
  | cons q rest ih =>
    unfold keysOK at hk
    rw [List.pairwise_cons] at hk
    obtain ⟨hq, hk'⟩ := hk
    constructor
    · intro hmem
      rcases List.mem_cons.mp hmem with rfl | hmem'
      · refine ⟨by simp [hasKey, List.any_cons], ?_⟩
        unfold statOf
        simp [List.find?_cons]
      · have hne : q.1 ≠ p.1 := hq p hmem'
        obtain ⟨hKmem, hstat⟩ := (ih hk').mp hmem'
        constructor
        · unfold hasKey at hKmem ⊢
          simp [List.any_cons, hKmem]
        · unfold statOf at hstat ⊢
          simpa [List.find?_cons, hne] using hstat
    · rintro ⟨hkey, hstat⟩
      by_cases hqp : q.1 = p.1
      · have hs : statOf (q :: rest) p.1 = q.2 := by
          unfold statOf
          simp [List.find?_cons, hqp]
        rw [hs] at hstat
        have : q = p := Prod.ext hqp hstat
        rw [← this]
        exact List.mem_cons_self q rest
      · have hkey' : hasKey rest p.1 = true := by
          unfold hasKey at hkey ⊢
          simpa [List.any_cons, hqp] using hkey
        have hstat' : statOf rest p.1 = p.2 := by
          unfold statOf at hstat ⊢
          simpa [List.find?_cons, hqp] using hstat
        exact List.mem_cons_of_mem q ((ih hk').mpr ⟨hkey', hstat'⟩)

/-- Membership in `genreAverages`: exactly the genres occurring in the
history, each with its filter-based average and count. -/
theorem mem_genreAveragesOf (h : List RatedRow) (g : String) (a : Rat) (c : Nat) :
    (g, a, c) ∈ genreAveragesOf h ↔
      (0 < genreCount h g ∧ a = (genreTotal h g : Rat) / ((genreCount h g : Nat) : Rat) ∧
        c = genreCount h g) := by
  unfold genreAveragesOf
  rw [(List.perm_insertionSort _ _).mem_iff, List.mem_map]
  constructor
  · rintro ⟨p, hp, hpe⟩
    obtain ⟨hkey, hstat⟩ := (mem_iff_stat (keysOK_genreStats h) p).mp hp
    rw [statOf_genreStats] at hstat
    rw [hasKey_genreStats] at hkey
    rw [Prod.ext_iff, Prod.ext_iff] at hpe
    obtain ⟨h1, h2, h3⟩ := hpe
    simp only at h1 h2 h3
    subst h1
    rw [Prod.ext_iff] at hstat
    obtain ⟨hs1, hs2⟩ := hstat
    simp only at hs1 hs2
    refine ⟨by simpa using hkey, ?_, ?_⟩
    · rw [← h2, hs1, hs2]
    · rw [← h3, hs2]
  · rintro ⟨hpos, ha, hc⟩
    refine ⟨(g, genreTotal h g, genreCount h g), ?_, ?_⟩
    · rw [mem_iff_stat (keysOK_genreStats h)]
      refine ⟨?_, ?_⟩
      · rw [hasKey_genreStats]
        simpa using hpos
      · rw [statOf_genreStats]
    · rw [Prod.ext_iff, Prod.ext_iff]
      exact ⟨rfl, ha.symm, hc.symm⟩

/-- Claim C8: for a non-empty history the analyzer reports, per genre, the
average rating and count; classifies a genre as top exactly when its average
is at least 4.0 and poor exactly when at most 2.5; computes the per-type
series and movie averages (0 for an absent type); flags a strong directional
preference exactly when the two averages differ by more than 0.5; and with
empty history produces no analysis at all. -/
theorem C8_pattern_analysis (h : List RatedRow) (hne : h ≠ []) :
    analyzeRatings [] = none ∧
    ∃ A, analyzeRatings h = some A ∧
      (∀ g a c, (g, a, c) ∈ A.genreAverages ↔
        (0 < genreCount h g ∧ a = (genreTotal h g : Rat) / ((genreCount h g : Nat) : Rat) ∧
          c = genreCount h g)) ∧
      (∀ g a c, (g, a, c) ∈ A.topGenres ↔ ((g, a, c) ∈ A.genreAverages ∧ (4 : Rat) ≤ a)) ∧
      (∀ g a c, (g, a, c) ∈ A.poorGenres ↔ ((g, a, c) ∈ A.genreAverages ∧ a ≤ (5 : Rat) / 2)) ∧
      A.seriesAvg = (if 0 < (seriesRatings h).length then
        (ratingSum (seriesRatings h) : Rat) / (((seriesRatings h).length : Nat) : Rat) else 0) ∧
      A.movieAvg = (if 0 < (movieRatings h).length then
        (ratingSum (movieRatings h) : Rat) / (((movieRatings h).length : Nat) : Rat) else 0) ∧
      (A.strongPreference = true ↔ (1 : Rat) / 2 < |A.seriesAvg - A.movieAvg|) := by
  have hlen : ¬ (h.length = 0) := fun h0 => hne (List.length_eq_zero.mp h0)
  refine ⟨rfl, ?_⟩
  refine ⟨_, by rw [analyzeRatings, if_neg hlen], ?_, ?_, ?_, rfl, rfl, ?_⟩
  · intro g a c
    exact mem_genreAveragesOf h g a c
  · intro g a c
    simp [List.mem_filter]
  · intro g a c
    simp [List.mem_filter]
  · simp

/-- A concrete one-row rating history. -/
def histEx : List RatedRow :=
  [{ title := "t1", type := "Series", genre := "Drama", user_rating := 5,
     watched := some true, match_reason := "" }]

/-- Witness for C8 at the concrete one-row history. -/
theorem C8_witness :
    (histEx ≠ []) ∧
    (analyzeRatings [] = none ∧
      ∃ A, analyzeRatings histEx = some A ∧
        (∀ g a c, (g, a, c) ∈ A.genreAverages ↔
          (0 < genreCount histEx g ∧
            a = (genreTotal histEx g : Rat) / ((genreCount histEx g : Nat) : Rat) ∧
            c = genreCount histEx g)) ∧
        (∀ g a c, (g, a, c) ∈ A.topGenres ↔ ((g, a, c) ∈ A.genreAverages ∧ (4 : Rat) ≤ a)) ∧
        (∀ g a c, (g, a, c) ∈ A.poorGenres ↔ ((g, a, c) ∈ A.genreAverages ∧ a ≤ (5 : Rat) / 2)) ∧
        A.seriesAvg = (if 0 < (seriesRatings histEx).length then
          (ratingSum (seriesRatings histEx) : Rat) /
            (((seriesRatings histEx).length : Nat) : Rat) else 0) ∧
        A.movieAvg = (if 0 < (movieRatings histEx).length then
          (ratingSum (movieRatings histEx) : Rat) /
            (((movieRatings histEx).length : Nat) : Rat) else 0) ∧
        (A.strongPreference = true ↔ (1 : Rat) / 2 < |A.seriesAvg - A.movieAvg|)) :=
  ⟨by decide, C8_pattern_analysis histEx (by decide)⟩

end NetflixRec
